import Mathlib

/-!
Shallow embedding of the sol-farm/sclink feed store (src/src/store.rs and
src/src/lib.rs), and proofs about its insert/fetch/latest algorithms and the
`with_store` buffer decoding.

Machine integers are modelled as `Nat` with an explicit `% U32M` wherever the
corresponding Rust `u32` operation can leave the 32-bit range.  Rust panics
(slice indexing out of bounds, `%`/`/` by zero, `unwrap` on `None`) are
modelled by the distinguished results `.panicked` below; the arithmetic
semantics is that of release builds (wrapping), which is what the crate ships
with on-chain.
-/

/-- `2 ^ 32`, the modulus of Rust `u32` arithmetic. -/
def U32M : Nat := 4294967296

/-- Header size constant from src/src/store.rs line 10: `HEADER_SIZE = 192`. -/
def HEADER_SIZE : Nat := 192

/-- Expected feed schema version, src/src/lib.rs line 24: `FEED_VERSION = 2`. -/
def FEED_VERSION : Nat := 2

/-- Byte size of one `Transmission` record: 8 (slot) + 4 (timestamp) +
4 (padding) + 16 (answer) + 8 + 8 (padding) = 48. -/
def TRANSMISSION_SIZE : Nat := 48

/-- One round record, src/src/store.rs lines 31-38.  `slot : u64`,
`timestamp : u32`, `answer : i128`; the padding fields carry no information
but are kept so that the record matches the source field for field. -/
structure Transmission where
  slot : Nat
  timestamp : Nat
  _padding0 : Nat
  answer : Int
  _padding1 : Nat
  _padding2 : Nat
deriving DecidableEq

/-- `Transmission::default()`: all fields zero. -/
def zeroTransmission : Transmission :=
  { slot := 0, timestamp := 0, _padding0 := 0, answer := 0,
    _padding1 := 0, _padding2 := 0 }

/-- The feed header, src/src/store.rs lines 62-78.  Identity fields
(`owner`, …) and `description` are raw byte strings; they are never
interpreted by the store algorithms. -/
structure Transmissions where
  _discriminator : List Nat
  version : Nat
  state : Nat
  owner : List Nat
  proposed_owner : List Nat
  writer : List Nat
  description : List Nat
  decimals : Nat
  flagging_threshold : Nat
  latest_round_id : Nat
  granularity : Nat
  live_length : Nat
  live_cursor : Nat
  historical_cursor : Nat
deriving DecidableEq

/-- The two-ring feed, src/src/store.rs lines 48-52: a header plus the live
and historical ring slices. -/
structure Feed where
  header : Transmissions
  live : List Transmission
  historical : List Transmission
deriving DecidableEq

/-- `Feed::insert`, src/src/store.rs lines 127-140 (release semantics).
The new `latest_round_id` is the u32-wrapped increment; the live write goes
to the current live cursor and the cursor advances by one modulo the live
length (`List.set` preserves the length, so `s.live.length` is the same
number as `self.live.len()` after the write).  The round also lands in the
historical ring iff the new `latest_round_id` is a multiple of
`granularity`.  Rust panics when `granularity == 0` (`% 0`) or when a cursor
is out of bounds; all theorems below work under hypotheses that exclude
those states, where this total function agrees with the source. -/
def Feed.insert (s : Feed) (round : Transmission) : Feed :=
  if ((s.header.latest_round_id + 1) % U32M) % s.header.granularity = 0 then
    { header := { s.header with
        latest_round_id := (s.header.latest_round_id + 1) % U32M,
        live_cursor := ((s.header.live_cursor + 1) % U32M) % s.live.length,
        historical_cursor :=
          ((s.header.historical_cursor + 1) % U32M) % s.historical.length },
      live := s.live.set s.header.live_cursor round,
      historical := s.historical.set s.header.historical_cursor round }
  else
    { header := { s.header with
        latest_round_id := (s.header.latest_round_id + 1) % U32M,
        live_cursor := ((s.header.live_cursor + 1) % U32M) % s.live.length },
      live := s.live.set s.header.live_cursor round,
      historical := s.historical }

/-- Result of a read operation.  `.panicked` marks a state/argument pair on
which the Rust code would panic (out-of-bounds slice index or `%`/`/` by
zero); `.absent` is Rust `None`. -/
inductive FetchResult where
  | found (t : Transmission)
  | absent
  | panicked
deriving DecidableEq

/-- The backward-walking index computation shared by both rings,
src/src/store.rs lines 174-178 and 187-193:
`cursor.checked_sub(offset).unwrap_or(cap - (offset - cursor))`, with the
u32 wrap of the fallback subtraction spelled out (release semantics; the
value only wraps when `offset - cursor > cap`, in which case the resulting
index is `≥ cap` and the subsequent slice access panics). -/
def wrapIndex (cursor offset cap : Nat) : Nat :=
  if offset ≤ cursor then cursor - offset
  else if offset - cursor ≤ cap then cap - (offset - cursor)
  else cap + U32M - (offset - cursor)

/-- `live_start`, src/src/store.rs line 163:
`latest_round_id.saturating_sub(live.len().saturating_sub(1))`. -/
def liveStart (s : Feed) : Nat :=
  s.header.latest_round_id - (s.live.length - 1)

/-- `historical_end`, src/src/store.rs line 165:
`latest_round_id - latest_round_id % granularity`. -/
def historicalEnd (s : Feed) : Nat :=
  s.header.latest_round_id - s.header.latest_round_id % s.header.granularity

/-- `historical_start`, src/src/store.rs lines 166-167:
`historical_end.saturating_sub(granularity * historical.len().saturating_sub(1))`,
with the u32 wrap of the product spelled out. -/
def historicalStart (s : Feed) : Nat :=
  historicalEnd s - (s.header.granularity * (s.historical.length - 1)) % U32M

/-- `Feed::fetch`, src/src/store.rs lines 154-199 (release semantics).
Ids above `latest_round_id` are absent; then `latest % granularity` panics
when `granularity == 0`; the live window is checked first and hit exactly,
the historical window second after rounding the id down to a multiple of
`granularity`.  Slice reads are `getElem?` with `none` mapped to
`.panicked`. -/
def fetch (s : Feed) (round_id : Nat) : FetchResult :=
  if s.header.latest_round_id < round_id then .absent
  else if s.header.granularity = 0 then .panicked
  else if liveStart s ≤ round_id ∧ round_id ≤ s.header.latest_round_id then
    match s.live[wrapIndex s.header.live_cursor
        ((s.header.latest_round_id - round_id + 1) % U32M) s.live.length]? with
    | some t => .found t
    | none => .panicked
  else if historicalStart s ≤ round_id ∧ round_id ≤ historicalEnd s then
    match s.historical[wrapIndex s.header.historical_cursor
        (((historicalEnd s - (round_id - round_id % s.header.granularity))
            / s.header.granularity + 1) % U32M) s.historical.length]? with
    | some t => .found t
    | none => .panicked
  else .absent

/-- `Feed::latest`, src/src/store.rs lines 142-152 (release semantics).
Uses the header's `live_length` field (not the slice length); `% len` panics
when the field is zero; the u32 wrap of `live_cursor + (len - 1)` is spelled
out. -/
def latestRound (s : Feed) : FetchResult :=
  if s.header.latest_round_id = 0 then .absent
  else if s.header.live_length = 0 then .panicked
  else
    match s.live[((s.header.live_cursor + (s.header.live_length - 1)) % U32M)
          % s.header.live_length]? with
    | some t => .found t
    | none => .panicked

/-- A freshly initialised header as the test fixture writes it
(src/src/store.rs lines 241-256): version 2, zero counters and cursors,
given granularity, `live_length` equal to the live ring's capacity. -/
def mkHeader (g liveLen : Nat) : Transmissions :=
  { _discriminator := List.replicate 8 0, version := FEED_VERSION, state := 0,
    owner := List.replicate 32 0, proposed_owner := List.replicate 32 0,
    writer := List.replicate 32 0, description := List.replicate 32 0,
    decimals := 18, flagging_threshold := 1000, latest_round_id := 0,
    granularity := g, live_length := liveLen, live_cursor := 0,
    historical_cursor := 0 }

/-- An empty store over the given initial ring contents (no rounds inserted
yet; the slots hold whatever the buffer held). -/
def mkInit (live0 hist0 : List Transmission) (g : Nat) : Feed :=
  { header := mkHeader g live0.length, live := live0, historical := hist0 }

/-- `insertN s f n` performs the inserts of rounds `f 1, …, f n` in order. -/
def insertN (s : Feed) (f : Nat → Transmission) : Nat → Feed
  | 0 => s
  | n + 1 => (insertN s f n).insert (f (n + 1))

/-- Round `i` of the reference fixture (src/src/store.rs lines 275-281):
slot, answer and timestamp all equal to `i`. -/
def fixRound (i : Nat) : Transmission :=
  { slot := i, timestamp := i, _padding0 := 0, answer := (i : Int),
    _padding1 := 0, _padding2 := 0 }

/-- The fixture store: live capacity 2, historical capacity 3, granularity 5,
twenty rounds inserted. -/
def fixtureStore : Feed :=
  insertN
    (mkInit (List.replicate 2 zeroTransmission)
      (List.replicate 3 zeroTransmission) 5) fixRound 20

example : fetch fixtureStore 21 = .absent := by decide
example : fetch fixtureStore 20 = .found (fixRound 20) := by decide
example : fetch fixtureStore 19 = .found (fixRound 19) := by decide
example : fetch fixtureStore 18 = .found (fixRound 15) := by decide
example : fetch fixtureStore 15 = .found (fixRound 15) := by decide
example : fetch fixtureStore 14 = .found (fixRound 10) := by decide
example : fetch fixtureStore 10 = .found (fixRound 10) := by decide
example : fetch fixtureStore 9 = .absent := by decide
example : latestRound fixtureStore = .found (fixRound 20) := by decide

/-! ### Basic facts about a single `insert` -/

lemma insert_live (s : Feed) (r : Transmission) :
    (s.insert r).live = s.live.set s.header.live_cursor r := by
  unfold Feed.insert; split <;> rfl

lemma insert_live_length (s : Feed) (r : Transmission) :
    (s.insert r).live.length = s.live.length := by
  rw [insert_live, List.length_set]

lemma insert_hist_length (s : Feed) (r : Transmission) :
    (s.insert r).historical.length = s.historical.length := by
  unfold Feed.insert; split <;> simp [List.length_set]

lemma insert_granularity (s : Feed) (r : Transmission) :
    (s.insert r).header.granularity = s.header.granularity := by
  unfold Feed.insert; split <;> rfl

lemma insert_live_length_field (s : Feed) (r : Transmission) :
    (s.insert r).header.live_length = s.header.live_length := by
  unfold Feed.insert; split <;> rfl

lemma insert_latest (s : Feed) (r : Transmission) :
    (s.insert r).header.latest_round_id =
      (s.header.latest_round_id + 1) % U32M := by
  unfold Feed.insert; split <;> rfl

lemma insert_live_cursor (s : Feed) (r : Transmission) :
    (s.insert r).header.live_cursor =
      ((s.header.live_cursor + 1) % U32M) % s.live.length := by
  unfold Feed.insert; split <;> rfl

lemma insert_hist_cursor (s : Feed) (r : Transmission) :
    (s.insert r).header.historical_cursor =
      if ((s.header.latest_round_id + 1) % U32M) % s.header.granularity = 0
      then ((s.header.historical_cursor + 1) % U32M) % s.historical.length
      else s.header.historical_cursor := by
  unfold Feed.insert
  by_cases h : ((s.header.latest_round_id + 1) % U32M) % s.header.granularity = 0 <;>
    simp [h]

lemma insert_historical (s : Feed) (r : Transmission) :
    (s.insert r).historical =
      if ((s.header.latest_round_id + 1) % U32M) % s.header.granularity = 0
      then s.historical.set s.header.historical_cursor r
      else s.historical := by
  unfold Feed.insert
  by_cases h : ((s.header.latest_round_id + 1) % U32M) % s.header.granularity = 0 <;>
    simp [h]

/-! ### The state after `n` inserts -/

lemma insertN_granularity (s : Feed) (f : Nat → Transmission) (n : Nat) :
    (insertN s f n).header.granularity = s.header.granularity := by
  induction n with
  | zero => rfl
  | succ n ih => rw [insertN, insert_granularity, ih]

lemma insertN_live_length_field (s : Feed) (f : Nat → Transmission) (n : Nat) :
    (insertN s f n).header.live_length = s.header.live_length := by
  induction n with
  | zero => rfl
  | succ n ih => rw [insertN, insert_live_length_field, ih]

lemma insertN_live_length (s : Feed) (f : Nat → Transmission) (n : Nat) :
    (insertN s f n).live.length = s.live.length := by
  induction n with
  | zero => rfl
  | succ n ih => rw [insertN, insert_live_length, ih]

lemma insertN_hist_length (s : Feed) (f : Nat → Transmission) (n : Nat) :
    (insertN s f n).historical.length = s.historical.length := by
  induction n with
  | zero => rfl
  | succ n ih => rw [insertN, insert_hist_length, ih]

lemma insertN_latest_mod (s : Feed) (f : Nat → Transmission)
    (h0 : s.header.latest_round_id = 0) (n : Nat) :
    (insertN s f n).header.latest_round_id = n % U32M := by
  induction n with
  | zero => simpa [insertN] using h0
  | succ n ih => rw [insertN, insert_latest, ih, Nat.mod_add_mod]

lemma insertN_latest (s : Feed) (f : Nat → Transmission)
    (h0 : s.header.latest_round_id = 0) (n : Nat) (hn : n < U32M) :
    (insertN s f n).header.latest_round_id = n := by
  rw [insertN_latest_mod s f h0 n, Nat.mod_eq_of_lt hn]

lemma insertN_live_cursor (s : Feed) (f : Nat → Transmission)
    (h0 : s.header.live_cursor = 0) (hL : 1 ≤ s.live.length)
    (hLb : s.live.length < U32M) (n : Nat) :
    (insertN s f n).header.live_cursor = n % s.live.length := by
  induction n with
  | zero => simpa [insertN] using h0
  | succ n ih =>
    rw [insertN, insert_live_cursor, insertN_live_length, ih]
    have h1 : n % s.live.length < s.live.length := Nat.mod_lt _ hL
    have h2 : (n % s.live.length + 1) % U32M = n % s.live.length + 1 :=
      Nat.mod_eq_of_lt (by omega)
    rw [h2, Nat.mod_add_mod]

lemma insertN_hist_cursor (s : Feed) (f : Nat → Transmission)
    (h0c : s.header.historical_cursor = 0) (h0l : s.header.latest_round_id = 0)
    (hH : 1 ≤ s.historical.length) (hHb : s.historical.length < U32M) :
    ∀ n, n < U32M →
      (insertN s f n).header.historical_cursor =
        (n / s.header.granularity) % s.historical.length := by
  intro n
  induction n with
  | zero => intro _; simpa [insertN] using h0c
  | succ n ih =>
    intro hn
    have hn' : n < U32M := by omega
    rw [insertN, insert_hist_cursor, insertN_latest s f h0l n hn',
      insertN_granularity, insertN_hist_length, ih hn']
    have he : (n + 1) % U32M = n + 1 := Nat.mod_eq_of_lt hn
    rw [he]
    by_cases hdvd : (n + 1) % s.header.granularity = 0
    · rw [if_pos hdvd]
      have h1 : n / s.header.granularity % s.historical.length <
          s.historical.length := Nat.mod_lt _ hH
      have h2 : (n / s.header.granularity % s.historical.length + 1) % U32M =
          n / s.header.granularity % s.historical.length + 1 :=
        Nat.mod_eq_of_lt (by omega)
      rw [h2, Nat.mod_add_mod,
        Nat.succ_div_of_dvd (Nat.dvd_of_mod_eq_zero hdvd)]
    · rw [if_neg hdvd,
        Nat.succ_div_of_not_dvd (fun hd => hdvd (Nat.mod_eq_zero_of_dvd hd))]

/-! ### Ring slot contents after `n` inserts

The `rid`-th insert writes the live slot `(rid - 1) % live_length`; it is
still there as long as fewer than `live_length` further inserts happened.
The `m`-th historical insert (the round with id `granularity * m`) writes
the historical slot `(m - 1) % historical_length`. -/

lemma insertN_live_get (s : Feed) (f : Nat → Transmission)
    (h0c : s.header.live_cursor = 0) (hL : 1 ≤ s.live.length)
    (hLb : s.live.length < U32M) :
    ∀ N rid, 1 ≤ rid → rid ≤ N → N - rid < s.live.length → N < U32M →
      (insertN s f N).live[(rid - 1) % s.live.length]? = some (f rid) := by
  intro N
  induction N with
  | zero => intro rid h1 h2 _ _; omega
  | succ N ih =>
    intro rid h1 h2 h3 h4
    rw [insertN, insert_live, insertN_live_cursor s f h0c hL hLb N]
    rcases Nat.lt_or_ge rid (N + 1) with hlt | hge
    · have hne : N % s.live.length ≠ (rid - 1) % s.live.length := by
        intro hmod
        have hdvd : s.live.length ∣ N - (rid - 1) :=
          (Nat.modEq_iff_dvd' (by omega)).1 hmod.symm
        have hle := Nat.le_of_dvd (by omega) hdvd
        omega
      rw [List.getElem?_set_ne hne]
      exact ih rid h1 (by omega) (by omega) (by omega)
    · have he : rid = N + 1 := by omega
      subst he
      simp only [Nat.add_sub_cancel]
      have hlen : N % s.live.length < (insertN s f N).live.length := by
        rw [insertN_live_length]; exact Nat.mod_lt _ hL
      rw [List.getElem?_set_self hlen]

lemma insertN_hist_get (s : Feed) (f : Nat → Transmission)
    (h0c : s.header.historical_cursor = 0) (h0l : s.header.latest_round_id = 0)
    (hg : 1 ≤ s.header.granularity)
    (hH : 1 ≤ s.historical.length) (hHb : s.historical.length < U32M) :
    ∀ N m, 1 ≤ m → s.header.granularity * m ≤ N →
      N / s.header.granularity - m < s.historical.length → N < U32M →
      (insertN s f N).historical[(m - 1) % s.historical.length]? =
        some (f (s.header.granularity * m)) := by
  intro N
  induction N with
  | zero =>
    intro m h1 h2 _ _
    have := Nat.mul_le_mul hg h1
    omega
  | succ N ih =>
    intro m h1 h2 h3 h4
    have hN' : N < U32M := by omega
    rw [insertN, insert_historical, insertN_latest s f h0l N hN',
      insertN_granularity, insertN_hist_cursor s f h0c h0l hH hHb N hN']
    have he : (N + 1) % U32M = N + 1 := Nat.mod_eq_of_lt h4
    rw [he]
    by_cases hdvd : (N + 1) % s.header.granularity = 0
    · rw [if_pos hdvd]
      have hKsucc : (N + 1) / s.header.granularity =
          N / s.header.granularity + 1 :=
        Nat.succ_div_of_dvd (Nat.dvd_of_mod_eq_zero hdvd)
      rw [hKsucc] at h3
      rcases Nat.lt_or_ge m (N / s.header.granularity + 1) with hlt | hge
      · have hne : (N / s.header.granularity) % s.historical.length ≠
            (m - 1) % s.historical.length := by
          intro hmod
          have hdvd2 : s.historical.length ∣ N / s.header.granularity - (m - 1) :=
            (Nat.modEq_iff_dvd' (by omega)).1 hmod.symm
          have hle := Nat.le_of_dvd (by omega) hdvd2
          omega
        rw [List.getElem?_set_ne hne]
        have hne2 : s.header.granularity * m ≠ N + 1 := by
          intro hEq
          have hm : (N + 1) / s.header.granularity = m := by
            rw [← hEq, Nat.mul_div_cancel_left _ (by omega : 0 < s.header.granularity)]
          omega
        exact ih m h1 (by omega) (by omega) hN'
      · have hub : m ≤ (N + 1) / s.header.granularity :=
          (Nat.le_div_iff_mul_le (by omega : 0 < s.header.granularity)).2
            (by rw [Nat.mul_comm]; exact h2)
        have hEq : m = N / s.header.granularity + 1 := by omega
        have hgm : s.header.granularity * m = N + 1 := by
          rw [hEq, ← hKsucc]
          exact Nat.mul_div_cancel' (Nat.dvd_of_mod_eq_zero hdvd) 
        rw [hgm, hEq]
        simp only [Nat.add_sub_cancel]
        have hlen : N / s.header.granularity % s.historical.length <
            (insertN s f N).historical.length := by
          rw [insertN_hist_length]; exact Nat.mod_lt _ hH
        rw [List.getElem?_set_self hlen]
    · rw [if_neg hdvd]
      have hKeq : (N + 1) / s.header.granularity = N / s.header.granularity :=
        Nat.succ_div_of_not_dvd (fun hd => hdvd (Nat.mod_eq_zero_of_dvd hd))
      rw [hKeq] at h3
      have hne2 : s.header.granularity * m ≠ N + 1 := by
        intro hEq
        exact hdvd (hEq ▸ Nat.mul_mod_right s.header.granularity m)
      exact ih m h1 (by omega) h3 hN'

/-! ### Index arithmetic -/

lemma wrapIndex_eq (c offset cap : Nat) (hc : c < cap) (h1 : 1 ≤ offset)
    (h2 : offset ≤ cap) : wrapIndex c offset cap = (c + cap - offset) % cap := by
  unfold wrapIndex
  rcases le_or_lt offset c with h | h
  · rw [if_pos h]
    have e : c + cap - offset = c - offset + cap := by omega
    rw [e, Nat.add_mod_right, Nat.mod_eq_of_lt (by omega)]
  · rw [if_neg (by omega), if_pos (by omega)]
    have e : cap - (offset - c) = c + cap - offset := by omega
    rw [e, Nat.mod_eq_of_lt (by omega)]

lemma walk_back_mod (n cap off r : Nat) (hoffc : off ≤ cap)
    (hr : r + off = n) : (n % cap + cap - off) % cap = r % cap := by
  have e1 : n % cap + cap - off = n % cap + (cap - off) := by omega
  rw [e1, Nat.mod_add_mod]
  have e2 : n + (cap - off) = r + cap := by omega
  rw [e2, Nat.add_mod_right]

/-! ### Branch characterisations of `fetch` -/

lemma fetch_live_branch (s : Feed) (rid : Nat)
    (hg : s.header.granularity ≠ 0)
    (h1 : liveStart s ≤ rid) (h2 : rid ≤ s.header.latest_round_id) :
    fetch s rid =
      match s.live[wrapIndex s.header.live_cursor
          ((s.header.latest_round_id - rid + 1) % U32M) s.live.length]? with
      | some t => .found t
      | none => .panicked := by
  unfold fetch
  rw [if_neg (by omega), if_neg hg, if_pos ⟨h1, h2⟩]

lemma fetch_hist_branch (s : Feed) (rid : Nat)
    (hg : s.header.granularity ≠ 0)
    (hlt : rid < liveStart s)
    (h1 : historicalStart s ≤ rid) (h2 : rid ≤ historicalEnd s) :
    fetch s rid =
      match s.historical[wrapIndex s.header.historical_cursor
          (((historicalEnd s - (rid - rid % s.header.granularity))
              / s.header.granularity + 1) % U32M) s.historical.length]? with
      | some t => .found t
      | none => .panicked := by
  have hle : rid ≤ s.header.latest_round_id := by
    have : historicalEnd s ≤ s.header.latest_round_id := by
      unfold historicalEnd; omega
    omega
  unfold fetch
  rw [if_neg (by omega), if_neg hg, if_neg (by omega), if_pos ⟨h1, h2⟩]

/-- C2: live exactness.  Starting from an empty store (any initial ring
contents) and inserting rounds `f 1, …, f N`, every id in the live window
`latest - live_length < rid ≤ latest`, `rid ≥ 1`, is fetched exactly: the
walk back from the live cursor by `latest - rid + 1` slots modulo the live
length lands on the slot the `rid`-th insert wrote.  The bounds
`live0.length < U32M` and `N < U32M` say that the ring capacity and the
round counter are within `u32` range, as they are in any buffer-backed
store. -/
theorem fetch_live_exact (live0 hist0 : List Transmission) (g : Nat)
    (f : Nat → Transmission) (N rid : Nat)
    (hg : 1 ≤ g) (hL : 1 ≤ live0.length) (hLb : live0.length < U32M)
    (hN : N < U32M) (h1 : 1 ≤ rid) (h2 : rid ≤ N) (h3 : N < rid + live0.length) :
    fetch (insertN (mkInit live0 hist0 g) f N) rid = .found (f rid) := by
  have hsl : (mkInit live0 hist0 g).live = live0 := rfl
  have hlat : (insertN (mkInit live0 hist0 g) f N).header.latest_round_id = N :=
    insertN_latest (mkInit live0 hist0 g) f rfl N hN
  have hgran : (insertN (mkInit live0 hist0 g) f N).header.granularity = g :=
    insertN_granularity (mkInit live0 hist0 g) f N
  have hliveLen : (insertN (mkInit live0 hist0 g) f N).live.length = live0.length := by
    rw [insertN_live_length, hsl]
  have hcur : (insertN (mkInit live0 hist0 g) f N).header.live_cursor =
      N % live0.length := by
    rw [insertN_live_cursor (mkInit live0 hist0 g) f rfl (by rw [hsl]; exact hL)
      (by rw [hsl]; exact hLb) N, hsl]
  have hstart : liveStart (insertN (mkInit live0 hist0 g) f N) ≤ rid := by
    unfold liveStart
    rw [hlat, hliveLen]
    omega
  rw [fetch_live_branch _ rid (by omega) hstart (by omega)]
  rw [hlat, hcur, hliveLen]
  have hoff : (N - rid + 1) % U32M = N - rid + 1 := Nat.mod_eq_of_lt (by omega)
  rw [hoff]
  rw [wrapIndex_eq _ _ _ (Nat.mod_lt _ hL) (by omega) (by omega)]
  rw [walk_back_mod N live0.length (N - rid + 1) (rid - 1) (by omega) (by omega)]
  have hslot := insertN_live_get (mkInit live0 hist0 g) f rfl (by rw [hsl]; exact hL)
    (by rw [hsl]; exact hLb) N rid h1 h2 (by rw [hsl]; omega) hN
  rw [hsl] at hslot
  rw [hslot]

/-- C3 (amended): historical rounding.  For an id below the live window,
inside the historical coverage and at least `granularity` (so that the
largest multiple of `granularity` that is `≤ rid` — namely
`g * (rid / g)` — is the id of a round that was actually inserted), `fetch`
returns exactly that round.  The bound `g * (hist0.length - 1) < U32M` says
the u32 product in `historical_start` does not wrap. -/
theorem fetch_hist_rounds_down (live0 hist0 : List Transmission) (g : Nat)
    (f : Nat → Transmission) (N rid : Nat)
    (hg : 1 ≤ g)
    (hH : 1 ≤ hist0.length) (hHb : hist0.length < U32M)
    (hprod : g * (hist0.length - 1) < U32M)
    (hN : N < U32M)
    (hglo : g ≤ rid)
    (hbelow : rid + (live0.length - 1) < N)
    (hcov1 : N - N % g ≤ rid + g * (hist0.length - 1))
    (hcov2 : rid ≤ N - N % g) :
    1 ≤ g * (rid / g) ∧ g * (rid / g) ≤ N ∧
      fetch (insertN (mkInit live0 hist0 g) f N) rid =
        .found (f (g * (rid / g))) := by
  have hsl : (mkInit live0 hist0 g).live = live0 := rfl
  have hsh : (mkInit live0 hist0 g).historical = hist0 := rfl
  have hlat : (insertN (mkInit live0 hist0 g) f N).header.latest_round_id = N :=
    insertN_latest (mkInit live0 hist0 g) f rfl N hN
  have hgran : (insertN (mkInit live0 hist0 g) f N).header.granularity = g :=
    insertN_granularity (mkInit live0 hist0 g) f N
  have hliveLen : (insertN (mkInit live0 hist0 g) f N).live.length = live0.length := by
    rw [insertN_live_length, hsl]
  have hhistLen : (insertN (mkInit live0 hist0 g) f N).historical.length =
      hist0.length := by
    rw [insertN_hist_length, hsh]
  have hcur : (insertN (mkInit live0 hist0 g) f N).header.historical_cursor =
      (N / g) % hist0.length := by
    have := insertN_hist_cursor (mkInit live0 hist0 g) f rfl rfl
      (by rw [hsh]; exact hH) (by rw [hsh]; exact hHb) N hN
    rw [hsh] at this
    exact this
  have hdm_r := Nat.div_add_mod rid g
  have hdm_N := Nat.div_add_mod N g
  have hmod_r : rid % g < g := Nat.mod_lt _ (by omega)
  have hm1 : 1 ≤ rid / g := (Nat.one_le_div_iff (by omega)).2 hglo
  have hmK : rid / g ≤ N / g := by
    have h1 : g * (rid / g) ≤ g * (N / g) := by omega
    exact Nat.le_of_mul_le_mul_left h1 (by omega)
  have hKmH : N / g < rid / g + hist0.length := by
    have e2 : g * (rid / g + 1) = g * (rid / g) + g := by
      rw [Nat.mul_add, Nat.mul_one]
    have e1 : g * (rid / g + 1) + g * (hist0.length - 1) =
        g * (rid / g + hist0.length) := by
      rw [← Nat.mul_add]
      congr 1
      omega
    have h2 : g * (N / g) < g * (rid / g + hist0.length) := by omega
    exact Nat.lt_of_mul_lt_mul_left h2
  have hend : historicalEnd (insertN (mkInit live0 hist0 g) f N) = N - N % g := by
    unfold historicalEnd
    rw [hlat, hgran]
  have hstart : historicalStart (insertN (mkInit live0 hist0 g) f N) ≤ rid := by
    unfold historicalStart
    rw [hend, hgran, hhistLen, Nat.mod_eq_of_lt hprod]
    omega
  have hlive : rid < liveStart (insertN (mkInit live0 hist0 g) f N) := by
    unfold liveStart
    rw [hlat, hliveLen]
    omega
  rw [fetch_hist_branch _ rid (by omega) hlive hstart (by omega)]
  rw [hgran, hend, hcur, hhistLen]
  have hrid2 : rid - rid % g = g * (rid / g) := by omega
  have hN2 : N - N % g = g * (N / g) := by omega
  rw [hrid2, hN2]
  have hsub : g * (N / g) - g * (rid / g) = g * (N / g - rid / g) := by
    have e : g * (N / g - rid / g + rid / g) =
        g * (N / g - rid / g) + g * (rid / g) := Nat.mul_add g _ _
    rw [Nat.sub_add_cancel hmK] at e
    omega
  rw [hsub, Nat.mul_div_cancel_left _ (by omega : 0 < g)]
  have hoff : (N / g - rid / g + 1) % U32M = N / g - rid / g + 1 :=
    Nat.mod_eq_of_lt (by omega)
  rw [hoff]
  rw [wrapIndex_eq _ _ _ (Nat.mod_lt _ hH) (by omega) (by omega)]
  rw [walk_back_mod (N / g) hist0.length (N / g - rid / g + 1) (rid / g - 1)
    (by omega) (by omega)]
  have hslot := insertN_hist_get (mkInit live0 hist0 g) f rfl rfl
    (by rw [show (mkInit live0 hist0 g).header.granularity = g from rfl]; exact hg)
    (by rw [hsh]; exact hH) (by rw [hsh]; exact hHb) N (rid / g) hm1
    (by rw [show (mkInit live0 hist0 g).header.granularity = g from rfl]; omega)
    (by rw [show (mkInit live0 hist0 g).header.granularity = g from rfl, hsh]; omega) hN
  rw [hsh] at hslot
  rw [show (mkInit live0 hist0 g).header.granularity = g from rfl] at hslot
  rw [hslot]
  refine ⟨by omega, by omega, rfl⟩

/-- C3 counterexample: live capacity 1, historical capacity 2, granularity 5,
rounds 1..7 inserted.  round_id 3 is below the live window (which is {7})
and inside the claimed historical coverage `[historical_end - 5*(2-1),
historical_end] = [0, 5]`, yet the largest multiple of the granularity that
is `≤ 3` is 0, which is not the id of any inserted round: `fetch` returns
the untouched initial slot contents instead (zero bytes for a zeroed
buffer, arbitrary bytes — here `fixRound 99` — otherwise). -/
theorem fetch_hist_round_zero_counterexample :
    liveStart (insertN (mkInit [zeroTransmission] [zeroTransmission, zeroTransmission] 5) fixRound 7) = 7 ∧
    historicalEnd (insertN (mkInit [zeroTransmission] [zeroTransmission, zeroTransmission] 5) fixRound 7) = 5 ∧
    historicalStart (insertN (mkInit [zeroTransmission] [zeroTransmission, zeroTransmission] 5) fixRound 7) = 0 ∧
    fetch (insertN (mkInit [zeroTransmission] [zeroTransmission, zeroTransmission] 5) fixRound 7) 3 = .found zeroTransmission ∧
    ¬ (1 ≤ 5 * (3 / 5) ∧ 5 * (3 / 5) ≤ 7 ∧
        fetch (insertN (mkInit [zeroTransmission] [zeroTransmission, zeroTransmission] 5) fixRound 7) 3 = .found (fixRound (5 * (3 / 5)))) ∧
    fetch (insertN (mkInit [zeroTransmission] [zeroTransmission, fixRound 99] 5) fixRound 7) 3 = .found (fixRound 99) ∧
    ¬ (1 ≤ 5 * (3 / 5) ∧ 5 * (3 / 5) ≤ 7 ∧
        fetch (insertN (mkInit [zeroTransmission] [zeroTransmission, fixRound 99] 5) fixRound 7) 3 = .found (fixRound (5 * (3 / 5)))) := by
  decide

/-- C1 (amended): `fetch` is absent for every id above `latest_round_id`;
and `fetch 0` is absent exactly in the states where id 0 lies outside both
computed windows, i.e. when both `live_start ≥ 1` and
`historical_start ≥ 1`.  (When the live ring is not yet full, `live_start`
is 0 and `fetch 0` instead returns an unwritten live slot — see the
counterexample.)  The hypothesis `granularity ≥ 1` is needed because the
source panics on `% 0` before any window test. -/
theorem fetch_future_or_zero (s : Feed) (rid : Nat)
    (hg : 1 ≤ s.header.granularity) :
    (s.header.latest_round_id < rid → fetch s rid = .absent) ∧
    (rid = 0 → 1 ≤ liveStart s → 1 ≤ historicalStart s →
      fetch s rid = .absent) := by
  constructor
  · intro h
    unfold fetch
    rw [if_pos h]
  · intro h0 hls hhs
    subst h0
    unfold fetch
    rw [if_neg (by omega), if_neg (by omega), if_neg (by omega),
      if_neg (by omega)]

/-- C1 witness: on the fixture store (latest id 20, live window starting at
19, historical window starting at 10) both parts of the amended claim
apply: id 21 is in the future and id 0 is outside both windows. -/
theorem fetch_future_or_zero_witness :
    fetch fixtureStore 21 = .absent ∧ fetch fixtureStore 0 = .absent :=
  ⟨(fetch_future_or_zero fixtureStore 21 (by decide)).1 (by decide),
   (fetch_future_or_zero fixtureStore 0 (by decide)).2 rfl (by decide)
     (by decide)⟩

/-- C1 counterexample: after a single insert into a store with live
capacity 2 the live ring is not yet full, `live_start` is 0, and `fetch 0`
returns the unwritten live slot (the zeroed buffer contents) instead of
absent, although `latest_round_id = 1 > 0`. -/
theorem fetch_zero_counterexample :
    (insertN (mkInit [zeroTransmission, zeroTransmission] [zeroTransmission, zeroTransmission, zeroTransmission] 5) fixRound 1).header.latest_round_id = 1 ∧
    fetch (insertN (mkInit [zeroTransmission, zeroTransmission] [zeroTransmission, zeroTransmission, zeroTransmission] 5) fixRound 1) 0 = .found zeroTransmission ∧
    fetch (insertN (mkInit [zeroTransmission, zeroTransmission] [zeroTransmission, zeroTransmission, zeroTransmission] 5) fixRound 1) 0 ≠ .absent := by
  decide

/-- C4: monotonicity and the insert step.  After `N` inserts from an empty
store the round counter is exactly `N` (`N + 1 < U32M` keeps the u32
counter, which the source increments with a wrapping `+= 1`, within range);
one more insert increments it to `N + 1`, writes the round at the current
live cursor and advances that cursor by one modulo the live length, and
touches the historical ring — same write/advance pattern — iff the new
round id `N + 1` is a multiple of the granularity. -/
theorem insert_monotone_step (live0 hist0 : List Transmission) (g : Nat)
    (f : Nat → Transmission) (N : Nat) (r : Transmission)
    (hg : 1 ≤ g) (hL : 1 ≤ live0.length) (hLb : live0.length < U32M)
    (hH : 1 ≤ hist0.length) (hHb : hist0.length < U32M)
    (hN : N + 1 < U32M) :
    (insertN (mkInit live0 hist0 g) f N).header.latest_round_id = N ∧
    ((insertN (mkInit live0 hist0 g) f N).insert r).header.latest_round_id = N + 1 ∧
    ((insertN (mkInit live0 hist0 g) f N).insert r).live =
      (insertN (mkInit live0 hist0 g) f N).live.set (insertN (mkInit live0 hist0 g) f N).header.live_cursor r ∧
    ((insertN (mkInit live0 hist0 g) f N).insert r).header.live_cursor =
      ((insertN (mkInit live0 hist0 g) f N).header.live_cursor + 1) % live0.length ∧
    ((N + 1) % g = 0 →
      ((insertN (mkInit live0 hist0 g) f N).insert r).historical =
        (insertN (mkInit live0 hist0 g) f N).historical.set (insertN (mkInit live0 hist0 g) f N).header.historical_cursor r ∧
      ((insertN (mkInit live0 hist0 g) f N).insert r).header.historical_cursor =
        ((insertN (mkInit live0 hist0 g) f N).header.historical_cursor + 1) % hist0.length) ∧
    ((N + 1) % g ≠ 0 →
      ((insertN (mkInit live0 hist0 g) f N).insert r).historical = (insertN (mkInit live0 hist0 g) f N).historical ∧
      ((insertN (mkInit live0 hist0 g) f N).insert r).header.historical_cursor =
        (insertN (mkInit live0 hist0 g) f N).header.historical_cursor) := by
  have hsl : (mkInit live0 hist0 g).live = live0 := rfl
  have hsh : (mkInit live0 hist0 g).historical = hist0 := rfl
  have hlat : (insertN (mkInit live0 hist0 g) f N).header.latest_round_id = N :=
    insertN_latest (mkInit live0 hist0 g) f rfl N (by omega)
  have hgran : (insertN (mkInit live0 hist0 g) f N).header.granularity = g :=
    insertN_granularity (mkInit live0 hist0 g) f N
  have hliveLen : (insertN (mkInit live0 hist0 g) f N).live.length = live0.length := by
    rw [insertN_live_length, hsl]
  have hhistLen : (insertN (mkInit live0 hist0 g) f N).historical.length = hist0.length := by
    rw [insertN_hist_length, hsh]
  have hcurL : (insertN (mkInit live0 hist0 g) f N).header.live_cursor = N % live0.length := by
    rw [insertN_live_cursor (mkInit live0 hist0 g) f rfl (by rw [hsl]; exact hL)
      (by rw [hsl]; exact hLb) N, hsl]
  have hcurH : (insertN (mkInit live0 hist0 g) f N).header.historical_cursor = (N / g) % hist0.length := by
    have := insertN_hist_cursor (mkInit live0 hist0 g) f rfl rfl
      (by rw [hsh]; exact hH) (by rw [hsh]; exact hHb) N (by omega)
    rw [hsh] at this
    exact this
  have hcond : (((insertN (mkInit live0 hist0 g) f N).header.latest_round_id + 1) % U32M) %
      (insertN (mkInit live0 hist0 g) f N).header.granularity = (N + 1) % g := by
    rw [hlat, hgran, Nat.mod_eq_of_lt hN]
  refine ⟨hlat, ?_, insert_live _ _, ?_, ?_, ?_⟩
  · rw [insert_latest, hlat, Nat.mod_eq_of_lt hN]
  · rw [insert_live_cursor, hliveLen, hcurL]
    have h1 : N % live0.length < live0.length := Nat.mod_lt _ hL
    rw [Nat.mod_eq_of_lt (by omega : N % live0.length + 1 < U32M)]
  · intro hdvd
    refine ⟨?_, ?_⟩
    · rw [insert_historical, hcond, if_pos hdvd]
    · rw [insert_hist_cursor, hcond, if_pos hdvd, hhistLen, hcurH]
      have h1 : N / g % hist0.length < hist0.length := Nat.mod_lt _ hH
      rw [Nat.mod_eq_of_lt (by omega : N / g % hist0.length + 1 < U32M)]
  · intro hdvd
    refine ⟨?_, ?_⟩
    · rw [insert_historical, hcond, if_neg hdvd]
    · rw [insert_hist_cursor, hcond, if_neg hdvd]

/-- C4 witness: fixture geometry (live 2, historical 3, granularity 5)
after 7 inserts; the 8th insert (id 8, not a multiple of 5) bumps the
counter from 7 to 8. -/
theorem insert_monotone_step_witness :
    (insertN (mkInit (List.replicate 2 zeroTransmission)
        (List.replicate 3 zeroTransmission) 5) fixRound 7).header.latest_round_id
      = 7 ∧
    ((insertN (mkInit (List.replicate 2 zeroTransmission)
        (List.replicate 3 zeroTransmission) 5) fixRound 7).insert
          (fixRound 8)).header.latest_round_id = 8 := by
  have h := insert_monotone_step (List.replicate 2 zeroTransmission)
    (List.replicate 3 zeroTransmission) 5 fixRound 7 (fixRound 8)
    (by decide) (by decide) (by decide) (by decide) (by decide) (by decide)
  exact ⟨h.1, h.2.1⟩

/-- C5: `latest()` is absent iff `latest_round_id = 0` (iff no round was
ever inserted), and otherwise returns the round at live slot
`(live_cursor + live_length - 1) % live_length`, which is the most recently
inserted round `f N`.  The bound `2 * live0.length ≤ U32M` keeps the u32
sum `live_cursor + (live_length - 1)` from wrapping. -/
theorem latest_round_spec (live0 hist0 : List Transmission) (g : Nat)
    (f : Nat → Transmission) (N : Nat)
    (hg : 1 ≤ g) (hL : 1 ≤ live0.length) (hLb : 2 * live0.length ≤ U32M)
    (hN : N < U32M) :
    (latestRound (insertN (mkInit live0 hist0 g) f N) = .absent ↔
      (insertN (mkInit live0 hist0 g) f N).header.latest_round_id = 0) ∧
    ((insertN (mkInit live0 hist0 g) f N).header.latest_round_id = 0 ↔ N = 0) ∧
    (1 ≤ N → latestRound (insertN (mkInit live0 hist0 g) f N) = .found (f N)) := by
  have hsl : (mkInit live0 hist0 g).live = live0 := rfl
  have hLb2 : live0.length < U32M := by omega
  have hlat : (insertN (mkInit live0 hist0 g) f N).header.latest_round_id = N :=
    insertN_latest (mkInit live0 hist0 g) f rfl N hN
  have hll : (insertN (mkInit live0 hist0 g) f N).header.live_length = live0.length := by
    rw [insertN_live_length_field]
    rfl
  have hcur : (insertN (mkInit live0 hist0 g) f N).header.live_cursor = N % live0.length := by
    rw [insertN_live_cursor (mkInit live0 hist0 g) f rfl (by rw [hsl]; exact hL)
      (by rw [hsl]; exact hLb2) N, hsl]
  have hfound : 1 ≤ N → latestRound (insertN (mkInit live0 hist0 g) f N) = .found (f N) := by
    intro hN1
    unfold latestRound
    rw [hlat, hll, hcur, if_neg (by omega), if_neg (by omega)]
    have h1 : N % live0.length < live0.length := Nat.mod_lt _ hL
    rw [Nat.mod_eq_of_lt
      (by omega : N % live0.length + (live0.length - 1) < U32M)]
    have e : N % live0.length + (live0.length - 1) =
        N % live0.length + live0.length - 1 := by omega
    rw [e, walk_back_mod N live0.length 1 (N - 1) hL (by omega)]
    have hslot := insertN_live_get (mkInit live0 hist0 g) f rfl
      (by rw [hsl]; exact hL) (by rw [hsl]; exact hLb2) N N hN1 le_rfl
      (by rw [hsl]; omega) hN
    rw [hsl] at hslot
    rw [hslot]
  refine ⟨?_, by rw [hlat], hfound⟩
  rw [hlat]
  constructor
  · intro habs
    by_contra hne
    rw [hfound (by omega)] at habs
    exact FetchResult.noConfusion habs
  · intro h0
    unfold latestRound
    rw [hlat, if_pos h0]

/-- C5 witness: fixture store with twenty rounds: `latest()` is not absent,
the counter is 20, and the returned round is the twentieth. -/
theorem latest_round_spec_witness :
    (latestRound fixtureStore = .absent ↔
      fixtureStore.header.latest_round_id = 0) ∧
    latestRound fixtureStore = .found (fixRound 20) := by
  have h := latest_round_spec (List.replicate 2 zeroTransmission)
    (List.replicate 3 zeroTransmission) 5 fixRound 20
    (by decide) (by decide) (by decide) (by decide)
  exact ⟨h.1, h.2.2 (by decide)⟩

/-- C6: the reference fixture (src/src/store.rs lines 229-345): live
capacity 2, historical capacity 3, granularity 5, rounds 1..20 with
slot = answer = timestamp = i; the eight fetches behave exactly as the
source test asserts. -/
theorem fixture_fetches :
    fetch fixtureStore 21 = .absent ∧
    fetch fixtureStore 20 = .found (fixRound 20) ∧
    fetch fixtureStore 19 = .found (fixRound 19) ∧
    fetch fixtureStore 18 = .found (fixRound 15) ∧
    fetch fixtureStore 15 = .found (fixRound 15) ∧
    fetch fixtureStore 14 = .found (fixRound 10) ∧
    fetch fixtureStore 10 = .found (fixRound 10) ∧
    fetch fixtureStore 9 = .absent := by
  decide

/-- Bound for the historical walk-back offset: inside the historical window
the computed offset is at most the ring capacity.  `W` stands for the
(possibly u32-wrapped) product `granularity * (capacity - 1)`; wrapping
only ever makes `W` smaller, so the bound holds for the wrapped value to. -/
lemma hist_offset_le (latest g H W rid : Nat) (hg : 1 ≤ g)
    (hW : W ≤ g * (H - 1)) (hH : 1 ≤ H)
    (h3a : latest - latest % g - W ≤ rid) (h3b : rid ≤ latest - latest % g) :
    (latest - latest % g - (rid - rid % g)) / g + 1 ≤ H := by
  have hdmL := Nat.div_add_mod latest g
  have hdmR := Nat.div_add_mod rid g
  have hmodlt : rid % g < g := Nat.mod_lt _ (by omega)
  have hE : latest - latest % g = g * (latest / g) := by omega
  have hrid2 : rid - rid % g = g * (rid / g) := by omega
  rw [hE, hrid2]
  have hdivle : rid / g ≤ latest / g := by
    have h1 : g * (rid / g) ≤ g * (latest / g) := by omega
    exact Nat.le_of_mul_le_mul_left h1 (by omega)
  have hsub : g * (latest / g) - g * (rid / g) = g * (latest / g - rid / g) := by
    have e : g * (latest / g - rid / g + rid / g) =
        g * (latest / g - rid / g) + g * (rid / g) := Nat.mul_add g _ _
    rw [Nat.sub_add_cancel hdivle] at e
    omega
  rw [hsub, Nat.mul_div_cancel_left _ (by omega : 0 < g)]
  have e2 : g * (H - 1) + g = g * H := by
    rw [← Nat.mul_succ]
    congr 1
    omega
  have hDb : g * (latest / g - rid / g) < g * H := by omega
  have := Nat.lt_of_mul_lt_mul_left hDb
  omega

/-- C8: totality.  For any store state with nonempty rings, nonzero
granularity, in-range cursors, a `live_length` header field matching the
live slice (as `with_store` guarantees) and u32-representable counter and
capacities, `fetch` never reaches an out-of-bounds index, division or
modulo by zero (it returns a round or absent for every `round_id`), and
neither does `latest()`. -/
theorem fetch_latest_total (s : Feed) (rid : Nat)
    (hg : 1 ≤ s.header.granularity)
    (hL : 1 ≤ s.live.length) (hH : 1 ≤ s.historical.length)
    (hcL : s.header.live_cursor < s.live.length)
    (hcH : s.header.historical_cursor < s.historical.length)
    (hlen : s.header.live_length = s.live.length)
    (hLb : s.live.length < U32M) (hHb : s.historical.length < U32M) :
    fetch s rid ≠ .panicked ∧ latestRound s ≠ .panicked := by
  constructor
  · unfold fetch
    by_cases h1 : s.header.latest_round_id < rid
    · rw [if_pos h1]
      decide
    · rw [if_neg h1, if_neg (by omega)]
      by_cases h2 : liveStart s ≤ rid ∧ rid ≤ s.header.latest_round_id
      · rw [if_pos h2]
        obtain ⟨h2a, h2b⟩ := h2
        unfold liveStart at h2a
        have hoffv : (s.header.latest_round_id - rid + 1) % U32M =
            s.header.latest_round_id - rid + 1 := Nat.mod_eq_of_lt (by omega)
        rw [hoffv]
        have hoffL : s.header.latest_round_id - rid + 1 ≤ s.live.length := by
          omega
        have hidx : wrapIndex s.header.live_cursor
            (s.header.latest_round_id - rid + 1) s.live.length <
            s.live.length := by
          unfold wrapIndex
          split
          · omega
          · rw [if_pos (by omega)]
            omega
        rw [List.getElem?_eq_getElem hidx]
        intro h
        exact FetchResult.noConfusion h
      · rw [if_neg h2]
        by_cases h3 : historicalStart s ≤ rid ∧ rid ≤ historicalEnd s
        · rw [if_pos h3]
          obtain ⟨h3a, h3b⟩ := h3
          unfold historicalStart at h3a
          unfold historicalEnd at h3a h3b
          have hge : historicalEnd s = s.header.latest_round_id -
              s.header.latest_round_id % s.header.granularity := rfl
          rw [hge]
          have hoffle := hist_offset_le s.header.latest_round_id
            s.header.granularity s.historical.length
            ((s.header.granularity * (s.historical.length - 1)) % U32M)
            rid hg (Nat.mod_le _ _) hH h3a h3b
          have hoffv : ((s.header.latest_round_id -
              s.header.latest_round_id % s.header.granularity -
              (rid - rid % s.header.granularity)) / s.header.granularity + 1)
                % U32M =
              (s.header.latest_round_id -
              s.header.latest_round_id % s.header.granularity -
              (rid - rid % s.header.granularity)) / s.header.granularity + 1 :=
            Nat.mod_eq_of_lt (by omega)
          rw [hoffv]
          have hidx : wrapIndex s.header.historical_cursor
              ((s.header.latest_round_id -
                s.header.latest_round_id % s.header.granularity -
                (rid - rid % s.header.granularity)) / s.header.granularity + 1)
              s.historical.length < s.historical.length := by
            unfold wrapIndex
            split
            · omega
            · rw [if_pos (by omega)]
              omega
          rw [List.getElem?_eq_getElem hidx]
          intro h
          exact FetchResult.noConfusion h
        · rw [if_neg h3]
          decide
  · unfold latestRound
    by_cases h0 : s.header.latest_round_id = 0
    · rw [if_pos h0]
      decide
    · rw [if_neg h0, if_neg (by omega)]
      have hidx : ((s.header.live_cursor + (s.header.live_length - 1)) % U32M)
          % s.header.live_length < s.live.length := by
        have h1 := Nat.mod_lt
          ((s.header.live_cursor + (s.header.live_length - 1)) % U32M)
          (y := s.header.live_length) (by omega)
        omega
      rw [List.getElem?_eq_getElem hidx]
      intro h
      exact FetchResult.noConfusion h

/-- C8 witness: the fixture store satisfies all the well-formedness
hypotheses and both reads are non-panicking at round id 7 (an evicted id —
the result is absent, not a panic). -/
theorem fetch_latest_total_witness :
    fetch fixtureStore 7 ≠ .panicked ∧ latestRound fixtureStore ≠ .panicked :=
  fetch_latest_total fixtureStore 7 (by decide) (by decide) (by decide)
    (by decide) (by decide) (by decide) (by decide) (by decide)

/-- C2 witness: in the fixture after twenty inserts, id 19 is inside the
live window and fetch returns precisely the nineteenth round. -/
theorem fetch_live_exact_witness :
    fetch (insertN (mkInit (List.replicate 2 zeroTransmission)
        (List.replicate 3 zeroTransmission) 5) fixRound 20) 19 =
      .found (fixRound 19) :=
  fetch_live_exact (List.replicate 2 zeroTransmission)
    (List.replicate 3 zeroTransmission) 5 fixRound 20 19
    (by decide) (by decide) (by decide) (by decide) (by decide) (by decide)
    (by decide)

/-- C3 witness: in the fixture after twenty inserts, id 13 is below the
live window, inside the historical coverage and at least the granularity;
fetch rounds it down to id 10 and returns that round. -/
theorem fetch_hist_rounds_down_witness :
    1 ≤ 5 * (13 / 5) ∧ 5 * (13 / 5) ≤ 20 ∧
      fetch (insertN (mkInit (List.replicate 2 zeroTransmission)
          (List.replicate 3 zeroTransmission) 5) fixRound 20) 13 =
        .found (fixRound (5 * (13 / 5))) :=
  fetch_hist_rounds_down (List.replicate 2 zeroTransmission)
    (List.replicate 3 zeroTransmission) 5 fixRound 20 13
    (by decide) (by decide) (by decide) (by decide) (by decide) (by decide)
    (by decide) (by decide) (by decide)

/-! ### The buffer decoder `with_store` (src/src/store.rs lines 85-124)

The account data is a byte list.  `so_defi_utils` accessors are modelled as
direct byte reads at the documented offsets (version at 8, `live_length` at
148); `solana_program` borrow operations always succeed in this
single-threaded model.  Alignment of the `bytemuck` cast is a memory-layout
property outside the embedding; its length check (the region must divide
into 48-byte records) is modelled. -/

/-- The only `ProgramError` variant `with_store` produces. -/
inductive ProgramError where
  | InvalidAccountData
deriving DecidableEq

/-- Result of a `with_store` call: an ok value, a typed error returned to
the caller, or a Rust panic (out-of-range `split_at`, failed cast
`unwrap`). -/
inductive WSResult (α : Type) where
  | ok (a : α)
  | err (e : ProgramError)
  | panicked
deriving DecidableEq

/-- Little-endian value of a byte list. -/
def leNat (bytes : List Nat) : Nat :=
  bytes.foldr (fun b acc => b + 256 * acc) 0

/-- `i128` from 16 little-endian bytes, two's complement. -/
def leI128 (bytes : List Nat) : Int :=
  if leNat bytes < 2 ^ 127 then (leNat bytes : Int)
  else (leNat bytes : Int) - 2 ^ 128

/-- `bytemuck` view of one 48-byte record as a `Transmission` (the
`#[repr(C)]` layout: slot at 0, timestamp at 8, padding at 12, answer at
16, padding at 32 and 40). -/
def parseTransmission (b : List Nat) : Transmission :=
  { slot := leNat (b.take 8),
    timestamp := leNat ((b.drop 8).take 4),
    _padding0 := leNat ((b.drop 12).take 4),
    answer := leI128 ((b.drop 16).take 16),
    _padding1 := leNat ((b.drop 32).take 8),
    _padding2 := leNat ((b.drop 40).take 8) }

/-- View of a byte region as consecutive 48-byte records. -/
def parseRecords (b : List Nat) : List Transmission :=
  if h : b = [] then []
  else
    parseTransmission (b.take TRANSMISSION_SIZE) ::
      parseRecords (b.drop TRANSMISSION_SIZE)
termination_by b.length
decreasing_by
  simp only [List.length_drop, TRANSMISSION_SIZE]
  have : 0 < b.length := List.length_pos.mpr h
  omega

/-- Borsh deserialisation of the header (`Transmissions::deserialize`): the
160-byte prefix read field by field in declaration order; `none` when the
buffer is shorter (the `.unwrap()` would panic). -/
def parseHeader (buf : List Nat) : Option Transmissions :=
  if 160 ≤ buf.length then
    some
      { _discriminator := buf.take 8,
        version := leNat ((buf.drop 8).take 1),
        state := leNat ((buf.drop 9).take 1),
        owner := (buf.drop 10).take 32,
        proposed_owner := (buf.drop 42).take 32,
        writer := (buf.drop 74).take 32,
        description := (buf.drop 106).take 32,
        decimals := leNat ((buf.drop 138).take 1),
        flagging_threshold := leNat ((buf.drop 139).take 4),
        latest_round_id := leNat ((buf.drop 143).take 4),
        granularity := leNat ((buf.drop 147).take 1),
        live_length := leNat ((buf.drop 148).take 4),
        live_cursor := leNat ((buf.drop 152).take 4),
        historical_cursor := leNat ((buf.drop 156).take 4) }
  else none

/-- `with_store`: version gate first (`InvalidAccountData` on mismatch),
then the layout is sliced — each slicing step that Rust would panic on
(`split_at` past the end, a historical region that does not divide into
48-byte records) yields `.panicked`.  The pair's second component is the
account data after the call; it is `buf` on every path because the source
hands `f` heap copies (`Box::new`, `to_vec`) and never writes back, so the
`Feed` that `f` returns is discarded just as the Rust copies are dropped. -/
def withStore {α : Type} (buf : List Nat) (f : Feed → Feed × α) :
    WSResult α × List Nat :=
  if buf.length < 9 then (.panicked, buf)
  else if buf.getD 8 0 ≠ FEED_VERSION then (.err .InvalidAccountData, buf)
  else if buf.length < 152 then (.panicked, buf)
  else
    if buf.length < 8 + HEADER_SIZE then (.panicked, buf)
    else
      if (buf.drop (8 + HEADER_SIZE)).length <
          leNat ((buf.drop 148).take 4) * TRANSMISSION_SIZE then
        (.panicked, buf)
      else if ((buf.drop (8 + HEADER_SIZE)).length -
          leNat ((buf.drop 148).take 4) * TRANSMISSION_SIZE)
            % TRANSMISSION_SIZE ≠ 0 then
        (.panicked, buf)
      else
        match parseHeader buf with
        | none => (.panicked, buf)
        | some hdr =>
          (.ok (f { header := hdr,
                    live := parseRecords ((buf.drop (8 + HEADER_SIZE)).take
                      (leNat ((buf.drop 148).take 4) * TRANSMISSION_SIZE)),
                    historical := parseRecords ((buf.drop (8 + HEADER_SIZE)).drop
                      (leNat ((buf.drop 148).take 4) * TRANSMISSION_SIZE)) }).2,
           buf)

/-- C9: the version gate.  Whenever the byte at offset 8 differs from
`FEED_VERSION` (= 2), `with_store` returns `InvalidAccountData` and leaves
the buffer untouched, regardless of everything else in the buffer (the
statement quantifies over all buffers with that version byte, so no later
field is ever consulted). -/
theorem with_store_version_mismatch {α : Type} (buf : List Nat)
    (f : Feed → Feed × α)
    (h9 : 9 ≤ buf.length) (hv : buf.getD 8 0 ≠ FEED_VERSION) :
    withStore buf f = (.err .InvalidAccountData, buf) := by
  unfold withStore
  rw [if_neg (by omega), if_pos hv]

set_option maxRecDepth 8192 in
/-- C9 witness: a 9-byte buffer whose version byte is 3. -/
theorem with_store_version_mismatch_witness :
    withStore ((List.replicate 9 0).set 8 3) (fun s => (s, 0)) =
      (.err .InvalidAccountData, (List.replicate 9 0).set 8 3) :=
  with_store_version_mismatch ((List.replicate 9 0).set 8 3)
    (fun s => (s, 0)) (by decide) (by decide)

/-- A 204-byte buffer with the correct version byte that declares
`live_length = 1`: the live region needs 48 bytes but only 4 remain after
the 200-byte header. -/
def shortBuf : List Nat := ((List.replicate 204 0).set 8 2).set 148 1

set_option maxRecDepth 65536 in
/-- C7 counterexample: on `shortBuf` the declared geometry does not fit the
buffer and the source panics in `data.split_at(n * size_of::<Transmission>())`
instead of returning a typed `BufferTooSmall`/`Malformed` error; the only
typed error `with_store` can return is the version mismatch. -/
theorem with_store_short_buffer_counterexample :
    shortBuf.length = 204 ∧
    shortBuf.getD 8 0 = FEED_VERSION ∧
    leNat ((shortBuf.drop 148).take 4) = 1 ∧
    withStore shortBuf (fun s => (s, 0)) = (.panicked, shortBuf) := by
  decide

/-- C7 (amended): when the buffer length cannot hold the 200-byte header
region plus `live_length` 48-byte rounds, or the remaining bytes do not
divide evenly into 48-byte records, `with_store` panics (slice `split_at`
or cast `unwrap`); it does not return a typed error. -/
theorem with_store_size_mismatch_panics {α : Type} (buf : List Nat)
    (f : Feed → Feed × α)
    (h9 : 9 ≤ buf.length) (hv : buf.getD 8 0 = FEED_VERSION)
    (hsz : buf.length < 8 + HEADER_SIZE +
        leNat ((buf.drop 148).take 4) * TRANSMISSION_SIZE ∨
      (buf.length - (8 + HEADER_SIZE +
        leNat ((buf.drop 148).take 4) * TRANSMISSION_SIZE))
          % TRANSMISSION_SIZE ≠ 0) :
    (withStore buf f).1 = .panicked := by
  unfold withStore
  rw [if_neg (by omega), if_neg (fun h => h hv)]
  by_cases h152 : buf.length < 152
  · rw [if_pos h152]
  · rw [if_neg h152]
    by_cases hhd : buf.length < 8 + HEADER_SIZE
    · rw [if_pos hhd]
    · rw [if_neg hhd]
      rw [List.length_drop]
      by_cases hlive : buf.length - (8 + HEADER_SIZE) <
          leNat ((buf.drop 148).take 4) * TRANSMISSION_SIZE
      · rw [if_pos hlive]
      · rw [if_neg hlive]
        rw [if_pos ?hmod]
        case hmod =>
          rcases hsz with h | h
          · omega
          · have e : buf.length - (8 + HEADER_SIZE) -
                leNat ((buf.drop 148).take 4) * TRANSMISSION_SIZE =
                buf.length - (8 + HEADER_SIZE +
                  leNat ((buf.drop 148).take 4) * TRANSMISSION_SIZE) := by
              omega
            rw [e]
            exact h

set_option maxRecDepth 65536 in
/-- C7 witness (for the amended claim): applying it to `shortBuf`. -/
theorem with_store_size_mismatch_panics_witness :
    (withStore shortBuf (fun s => (s, 0))).1 = .panicked :=
  with_store_size_mismatch_panics shortBuf (fun s => (s, 0))
    (by decide) (by decide) (by decide)

/-- C10: no write-back.  `with_store` returns the account bytes unchanged —
even when the callback performs `insert`s, those mutate heap copies — and
therefore a second `with_store` on the account observes exactly the same
initial state as the first. -/
theorem with_store_no_writeback {α β : Type} (buf : List Nat)
    (f : Feed → Feed × α) (g2 : Feed → Feed × β) :
    (withStore buf f).2 = buf ∧
    (withStore (withStore buf f).2 g2).1 = (withStore buf g2).1 := by
  have h : (withStore buf f).2 = buf := by
    unfold withStore
    repeat' split
    all_goals rfl
  exact ⟨h, by rw [h]⟩
